import Mathlib

/-!
Verification of the ona-clojure Python adapter (misc/python/NAR.py,
NAR_working.py, NAR_native_threaded.py, NAR_native.py) against its
natural-language specification.

The adapter drives an external reasoning engine over stdin/stdout pipes.
We shallowly embed the relevant Python functions as total Lean functions:
fallible Python code (code that can raise an uncaught exception) is
embedded as a function returning Option, with `none` standing for the
exception; the engine process and wall-clock time are represented by
explicit data (a list of output lines, a trace of timed queue polls).

String primitives are re-implemented on `List Char` by structural
recursion so that every definition evaluates by `rfl`/`decide`.  They
mirror the exact Python semantics used by the adapter: `str.strip`,
`str.split(sep)` (split on every occurrence of `sep`), `str.split()`
(whitespace words), substring containment (`in`), `str.startswith`,
`str.lower`, `str.replace`.
-/

/-- Does the first list occur as a leading segment of the second list?
Mirrors Python `str.startswith`. -/
def startsWithL : List Char → List Char → Bool
  | [], _ => true
  | _ :: _, [] => false
  | a :: as, b :: bs => a == b && startsWithL as bs

/-- Does the first list occur contiguously anywhere inside the second?
Mirrors the Python substring test `needle in hay`. -/
def containsL : List Char → List Char → Bool
  | n, [] => n.isEmpty
  | n, l@(_ :: rest) => startsWithL n l || containsL n rest

/-- Worker for `splitL`: fuel-indexed so that the recursion is structural
and kernel-reducible.  Fuel is always instantiated with the length of the
list being split, which suffices because every step consumes at least one
character. -/
def splitGo (sep : List Char) : ℕ → List Char → List Char → List (List Char)
  | _, [], acc => [acc.reverse]
  | 0, l, acc => [acc.reverse ++ l]
  | fuel + 1, c :: rest, acc =>
    if sep ≠ [] ∧ startsWithL sep (c :: rest) then
      acc.reverse :: splitGo sep fuel (List.drop (sep.length - 1) rest) []
    else
      splitGo sep fuel rest (c :: acc)

/-- Split a list on every non-overlapping occurrence of `sep`, scanning
left to right.  Mirrors Python `s.split(sep)` for a non-empty `sep`. -/
def splitL (sep l : List Char) : List (List Char) := splitGo sep l.length l []

/-- Split at every single whitespace character, keeping empty chunks.
Helper for `wordsL`. -/
def splitWsGo : List Char → List Char → List (List Char)
  | [], acc => [acc.reverse]
  | c :: rest, acc =>
    if c.isWhitespace then acc.reverse :: splitWsGo rest []
    else splitWsGo rest (c :: acc)

/-- Whitespace-separated words, empty chunks dropped.  Mirrors Python
`s.split()` with no argument. -/
def wordsL (l : List Char) : List (List Char) :=
  (splitWsGo l []).filter (fun w => !w.isEmpty)

/-- Drop leading whitespace. -/
def dropWs (l : List Char) : List Char := l.dropWhile (fun c => c.isWhitespace)

/-- Strip whitespace from both ends.  Mirrors Python `s.strip()`. -/
def stripL (l : List Char) : List Char := ((dropWs l).reverse |> dropWs).reverse

/-- Lowercase every character.  Mirrors Python `s.lower()` on ASCII. -/
def toLowerL (l : List Char) : List Char := l.map Char.toLower

/-- Replace every occurrence of one character by another.  Mirrors
Python `s.replace(a, b)` for single characters. -/
def replCharL (a b : Char) (l : List Char) : List Char :=
  l.map (fun c => if c == a then b else c)

/-- String wrapper: `hay.startswith(needle)`. -/
def strStarts (hay needle : String) : Bool := startsWithL needle.data hay.data

/-- String wrapper: Python `needle in hay`. -/
def strHas (needle hay : String) : Bool := containsL needle.data hay.data

/-- String wrapper: Python `s.split(sep)`. -/
def pysplit (sep s : String) : List String := (splitL sep.data s.data).map String.mk

/-- String wrapper: Python `s.strip()`. -/
def pystrip (s : String) : String := String.mk (stripL s.data)

/-- String wrapper: Python `s.split()` (whitespace words). -/
def pywords (s : String) : List String := (wordsL s.data).map String.mk

/-- String wrapper: Python `s.lower()`. -/
def pylower (s : String) : String := String.mk (toLowerL s.data)

/-- Accumulate the numeric value of a list of decimal digit characters. -/
def digitsToNat (l : List Char) : ℕ :=
  l.foldl (fun a c => a * 10 + (c.toNat - 48)) 0

/-- Python `int(s)` on an already stripped string: an optional sign
followed by a non-empty run of decimal digits.  `none` models the
`ValueError` that Python raises on any other shape. -/
def pyIntCore : List Char → Option ℤ
  | [] => none
  | '+' :: rest =>
    if !rest.isEmpty && rest.all Char.isDigit then some (digitsToNat rest) else none
  | '-' :: rest =>
    if !rest.isEmpty && rest.all Char.isDigit then some (-(digitsToNat rest : ℤ)) else none
  | l => if l.all Char.isDigit then some (digitsToNat l) else none

/-- Python `int(s)` (Python strips surrounding whitespace itself). -/
def pyInt (s : String) : Option ℤ := pyIntCore (stripL s.data)

/-- Value of a parsed Python float, kept exactly as a decimal fixed-point
number `m / 10 ^ e`.  Stored normalized (no trailing zero digits in the
fraction), so that two Python-equal float literals such as `0.70` and
`0.7` receive the same representative. -/
structure PyF where
  m : ℤ
  e : ℕ
deriving DecidableEq, Repr

/-- Strip factors of ten out of the fraction part (fuel-indexed division
loop; fuel is instantiated with the initial exponent). -/
def pfNormGo : ℕ → ℤ → ℕ → PyF
  | _, m, 0 => ⟨m, 0⟩
  | 0, m, e => ⟨m, e⟩
  | fuel + 1, m, e + 1 =>
    if m % 10 = 0 then pfNormGo fuel (m / 10) e else ⟨m, e + 1⟩

/-- Build the normalized value `(-1)^neg * mant / 10^fracLen * 10^exp`. -/
def pfOfParts (neg : Bool) (mant : ℕ) (fracLen : ℕ) (ex : ℤ) : PyF :=
  let m : ℤ := if neg then -(mant : ℤ) else (mant : ℤ)
  let sc : ℤ := (fracLen : ℤ) - ex
  if m = 0 then ⟨0, 0⟩
  else if sc ≤ 0 then ⟨m * 10 ^ (-sc).toNat, 0⟩
  else pfNormGo sc.toNat m sc.toNat

/-- Split at the first `e`/`E`, returning the mantissa text and the
exponent text when an exponent marker is present. -/
def splitAtE : List Char → List Char × Option (List Char)
  | [] => ([], none)
  | c :: rest =>
    if c == 'e' || c == 'E' then ([], some rest)
    else
      let r := splitAtE rest
      (c :: r.1, r.2)

/-- Split at the first decimal point. -/
def splitAtDot : List Char → List Char × Option (List Char)
  | [] => ([], none)
  | c :: rest =>
    if c == '.' then ([], some rest)
    else
      let r := splitAtDot rest
      (c :: r.1, r.2)

/-- Optional sign, returning whether the value is negated and the rest. -/
def parseSignL : List Char → Bool × List Char
  | '+' :: rest => (false, rest)
  | '-' :: rest => (true, rest)
  | l => (false, l)

/-- Exponent part of a float literal: optional sign and digits. -/
def expVal (l : List Char) : Option ℤ :=
  let s := parseSignL l
  if !s.2.isEmpty && s.2.all Char.isDigit then
    some (if s.1 then -(digitsToNat s.2 : ℤ) else (digitsToNat s.2 : ℤ))
  else none

/-- Python `float(s)` on an already stripped string, for the decimal
shapes `[sign] (digits [. digits] | . digits) [(e|E) [sign] digits]`.
The special spellings `inf`/`nan` and digit-group underscores, which the
adapter never feeds in, are not modeled and map to `none` like every
other unparseable string. -/
def pyFloatCore (l : List Char) : Option PyF :=
  let s := parseSignL l
  let me := splitAtE s.2
  let ifr := splitAtDot me.1
  let fp := ifr.2.getD []
  if ifr.1.all Char.isDigit && fp.all Char.isDigit &&
      (!ifr.1.isEmpty || !fp.isEmpty) then
    match me.2 with
    | none => some (pfOfParts s.1 (digitsToNat (ifr.1 ++ fp)) fp.length 0)
    | some ex => (expVal ex).map (fun e => pfOfParts s.1 (digitsToNat (ifr.1 ++ fp)) fp.length e)
  else none

/-- Python `float(s)` (Python strips surrounding whitespace itself).
`none` models the `ValueError` raised on an unparseable string. -/
def pyFloat (s : String) : Option PyF := pyFloatCore (stripL s.data)

/-- Pad a numeral with leading zeros up to `k` digits. -/
def padZeros (k : ℕ) (s : String) : String :=
  String.mk (List.replicate (k - s.length) '0') ++ s

/-- Python `repr`/`str` of a float holding a terminating decimal value:
the shortest decimal spelling, with `.0` appended to integral values.
This is exactly what a Python f-string produces for the truth and desire
values the adapter renders (for example `1.0` and `0.9`). -/
def pfRepr (x : PyF) : String :=
  if x.e = 0 then toString x.m ++ ".0"
  else
    let sign := if x.m < 0 then "-" else ""
    let a := x.m.natAbs
    sign ++ toString (a / 10 ^ x.e) ++ "." ++ padZeros x.e (toString (a % 10 ^ x.e))

example : pyFloat "0.57" = some ⟨57, 2⟩ := by decide
example : pyFloat " 0.70 " = some ⟨7, 1⟩ := by decide
example : pyFloat "42" = some ⟨42, 0⟩ := by decide
example : pyFloat "1e3" = some ⟨1000, 0⟩ := by decide
example : pyFloat "something odd" = none := by decide
example : pyInt "42" = some 42 := by decide
example : pyInt "0.57" = none := by decide
example : pfRepr ⟨9, 1⟩ = "0.9" := by decide
example : pfRepr ⟨1, 0⟩ = "1.0" := by decide
example : pysplit "desire=" "^executed: ^a desire=" = ["^executed: ^a ", ""] := by decide
example : pywords "  ^left  desire=0.70 " = ["^left", "desire=0.70"] := by decide
example : pystrip "  a b\t" = "a b" := by decide

/-!
JSON values.  NAR.py feeds lines that start with a brace or bracket to
the standard-library `json.loads` and works with the resulting Python
values (dict, list, str, int, float, bool, None).  We model those values
with `JVal`; JSON source text parsing itself belongs to the Python
standard library, so the classifier below takes the loader as an
explicit function parameter.
-/

/-- Python value produced by `json.loads`: dicts keep their key order,
and JSON integers and JSON floats stay distinct, exactly as in Python. -/
inductive JVal where
  | jnull : JVal
  | jbool : Bool → JVal
  | jint : ℤ → JVal
  | jnum : PyF → JVal
  | jstr : String → JVal
  | jarr : List JVal → JVal
  | jobj : List (String × JVal) → JVal

/-- Python `dict.get(k)` on the association list of a parsed JSON
object: the first binding wins (`json.loads` already collapses duplicate
keys, so the list is duplicate-free in practice). -/
def jGet (kvs : List (String × JVal)) (k : String) : Option JVal :=
  (kvs.find? (fun kv => kv.1 == k)).map (fun kv => kv.2)

/-- Python `k in dict`. -/
def jHas (kvs : List (String × JVal)) (k : String) : Bool :=
  (jGet kvs k).isSome

/-- Python `str(v)` / f-string interpolation of a JSON scalar.  The
adapter only ever renders scalar fields (term text, occurrence time,
priority, truth components); container rendering is abstracted to a
fixed placeholder. -/
def pyStr : JVal → String
  | .jnull => "None"
  | .jbool true => "True"
  | .jbool false => "False"
  | .jint n => toString n
  | .jnum x => pfRepr x
  | .jstr s => s
  | .jarr _ => "[...]"
  | .jobj _ => "\x7b...\x7d"

/-- Truth value as parsed by NAR.py `parseTruth`: the raw JSON values of
the `frequency` and `confidence` fields (defaults substituted when a
field is missing). -/
structure TruthRec where
  frequency : JVal
  confidence : JVal

/-- NAR.py `parseTruth` (lines 64-71): a dict yields the two fields with
defaults `frequency=1.0`, `confidence=0.9`; any non-dict value yields
`None` rather than raising. -/
def parseTruth : JVal → Option TruthRec
  | .jobj kvs =>
    some ⟨(jGet kvs "frequency").getD (.jnum ⟨1, 0⟩),
          (jGet kvs "confidence").getD (.jnum ⟨9, 1⟩)⟩
  | _ => none

/-- Task as built by NAR.py `parseTask`.  `truth = some none` records a
`truth` key whose value was not a dict (Python stores `None` under the
key in that case); `priority` holds the stringified priority when the
key is present. -/
structure TaskRec where
  term : JVal
  occurrenceTime : String
  punctuation : String
  truth : Option (Option TruthRec)
  priority : Option String

/-- Punctuation chosen by NAR.py `parseTask` from the `type` field. -/
def typePunct : JVal → String
  | .jstr s => if s = "goal" then "!" else if s = "question" then "?" else "."
  | _ => "."

/-- NAR.py `parseTask` (lines 73-109): a non-dict yields `None`; a dict
yields term (default empty string), stringified occurrence time (default
`eternal`), punctuation from the `type` field, parsed truth when a
`truth` key is present, and stringified priority when present. -/
def parseTask : JVal → Option TaskRec
  | .jobj kvs =>
    some ⟨(jGet kvs "term").getD (.jstr ""),
          pyStr ((jGet kvs "occurrence-time").getD (.jstr "eternal")),
          typePunct ((jGet kvs "type").getD (.jstr "belief")),
          (jGet kvs "truth").map parseTruth,
          (jGet kvs "priority").map pyStr⟩
  | _ => none

/-- Execution record as built by NAR.py `parseExecution`.  The fields
keep the raw JSON values, as the Python dict does. -/
structure ExecRec where
  operator : JVal
  arguments : JVal
  desire : JVal

/-- NAR.py `parseExecution` on a parsed JSON dict (lines 117-122):
defaults are the empty operator, the empty argument list and desire 0. -/
def parseExecutionDict (kvs : List (String × JVal)) : ExecRec :=
  ⟨(jGet kvs "operation").getD (.jstr ""),
   (jGet kvs "arguments").getD (.jarr []),
   (jGet kvs "desire").getD (.jnum ⟨0, 0⟩)⟩

/-- First whitespace token after the first `desire=` marker, if any.
This is the token NAR.py passes to `float`. -/
def desireToken (s : String) : Option String :=
  (pywords (((pysplit "desire=" s).get? 1).getD "")).head?

/-- NAR.py `parseExecution` on a text line (lines 124-137).  `none`
models the uncaught exception Python raises when `desire=` occurs but is
not followed by a float-parseable token: `IndexError` when no token
follows at all, `ValueError` from `float` otherwise. -/
def parseExecutionText (s : String) : Option ExecRec :=
  if strHas "^executed:" s then
    let parts := pywords (pystrip (((pysplit "^executed:" s).get? 1).getD ""))
    let operator := parts.headD ""
    if strHas "desire=" s then
      match desireToken s with
      | none => none
      | some tok =>
        match pyFloat tok with
        | none => none
        | some d => some ⟨.jstr operator, .jarr [], .jnum d⟩
    else some ⟨.jstr operator, .jarr [], .jnum ⟨0, 0⟩⟩
  else some ⟨.jstr "", .jarr [], .jnum ⟨0, 0⟩⟩

example : parseExecutionText "^executed: ^left desire=0.70" =
    some ⟨.jstr "^left", .jarr [], .jnum ⟨7, 1⟩⟩ := rfl
example : parseExecutionText "^executed: ^left" =
    some ⟨.jstr "^left", .jarr [], .jnum ⟨0, 0⟩⟩ := rfl
example : parseExecutionText "^executed: ^a desire=" = none := rfl
example : parseExecutionText "^executed: ^a desire=oops" = none := rfl

/-!
Per-line classification.  NAR.py `GetOutput` (lines 195-259) walks the
batch lines once: lines starting with a brace or bracket are first tried
as JSON (a decode failure is caught and ignored), then an if/elif chain
dispatches on the text prefixes.  Each line lands in at most one of the
typed collections; a line matching nothing is kept only in the raw text.
-/

/-- Typed event a single line contributes in NAR.py `GetOutput`.
`unstructured` stands for a line that lands in no typed collection (it
is still kept in the raw text).  The `task*` constructors carry the term
text exactly as `GetOutput` slices it. -/
inductive LineEvent where
  | exec : ExecRec → LineEvent
  | jsonTask : TaskRec → LineEvent
  | taskInput : String → LineEvent
  | taskDerived : String → LineEvent
  | answer : String → LineEvent
  | selected : String → LineEvent
  | unstructured : LineEvent

/-- Is the event one of the task shapes?  (Used to state the round-trip
claim: re-parsing a rendered task line should produce a task again.) -/
def isTaskEvent : Option LineEvent → Bool
  | some (.jsonTask _) => true
  | some (.taskInput _) => true
  | some (.taskDerived _) => true
  | some (.answer _) => true
  | some (.selected _) => true
  | _ => false

/-- JSON arm of the per-line dispatch of NAR.py `GetOutput` (lines
216-229).  The parameter `jp` stands for the standard-library
`json.loads` restricted to a single line: `jp` returning `none` models a
`json.JSONDecodeError`, which `GetOutput` catches and ignores.  The arm
contributes an event only for a dict carrying an `operation` or a `term`
key; `none` means no event from this arm. -/
def classifyJson (jp : String → Option JVal) (line : String) : Option LineEvent :=
  if strStarts line "\x7b" || strStarts line "[" then
    match jp line with
    | some (.jobj kvs) =>
      if jHas kvs "operation" then some (.exec (parseExecutionDict kvs))
      else if jHas kvs "term" then
        match parseTask (.jobj kvs) with
        | some t => some (.jsonTask t)
        | none => none
      else none
    | _ => none
  else none

/-- Text arm of the dispatch: the if/elif prefix chain of NAR.py
`GetOutput` (lines 232-246), reached when the JSON arm contributed no
event.  The result `none` models the uncaught exception from
`parseExecution` on a malformed `desire=` token; every other line
produces exactly one event. -/
def classifyText (line : String) : Option LineEvent :=
  if strStarts line "^executed:" then (parseExecutionText line).map .exec
  else if strStarts line "Input:" then
    some (.taskInput (pystrip (((pysplit "Input:" line).get? 1).getD "")))
  else if strStarts line "Derived:" || strStarts line "Revised:" then
    some (.taskDerived (pystrip (((pysplit ":" line).get? 1).getD "")))
  else if strStarts line "Answer:" then
    some (.answer (pystrip (((pysplit "Answer:" line).get? 1).getD "")))
  else if strStarts line "Selected:" then
    some (.selected (pystrip (((pysplit "Selected:" line).get? 1).getD "")))
  else some .unstructured

/-- Per-line dispatch of the main loop of NAR.py `GetOutput` (lines
216-246): the JSON arm first, then the textual prefix chain.  A line
contributes at most one typed event because the JSON arm only fires on
lines starting with a brace or bracket and no textual prefix starts
with either.  The additional `parseReason` pass of line 248 is modeled
separately below and combined with this dispatch in
`classifyLineFull`. -/
def classifyLine (jp : String → Option JVal) (line : String) : Option LineEvent :=
  match classifyJson jp line with
  | some ev => some ev
  | none => classifyText line

/-- JSON loader that always fails; a line that does not start with a
brace or bracket is classified identically under every loader, so this
canonical loader is used to state concrete classification facts. -/
def jpNone : String → Option JVal := fun _ => none

/-- Syntactic characterization of the `^executed:` lines on which NAR.py
`parseExecution` raises: a `desire=` marker present but not followed by
a float-parseable token. -/
def badDesire (line : String) : Bool :=
  strStarts line "^executed:" && strHas "desire=" line &&
    (match desireToken line with
     | none => true
     | some tok => (pyFloat tok).isNone)

/-!
Reason pass.  Besides its per-line loop, NAR.py `GetOutput` runs
`parseReason` (line 248, body at lines 139-159) over the batch lines: it
returns a reason dict built from the first line containing `^decide:`
(or Python `None` when no line matches), and on a malformed `desire=`
token it raises exactly like `parseExecution` does.  Full per-line
classification therefore combines the loop dispatch with the per-line
body of this pass.
-/

/-- Decision reasoning record built by NAR.py `parseReason`: the desire
value and the term of the hypothesis task.  In the code the hypothesis
punctuation is always `.` and the precondition always `None`, so they
carry no information and are not stored. -/
structure ReasonRec where
  desire : PyF
  hypothesisTerm : String

/-- Stripped text after the first `^decide:` marker: the `parts`
variable of NAR.py `parseReason` (line 147). -/
def decideParts (line : String) : String :=
  pystrip (((pysplit "^decide:" line).get? 1).getD "")

/-- Body of the NAR.py `parseReason` loop for one line containing
`^decide:` (lines 147-157).  `none` models the uncaught exception
raised when `desire=` occurs in the stripped tail but is not followed
by a float-parseable token: `IndexError` when no token follows,
`ValueError` from `float` otherwise. -/
def parseReasonLine (line : String) : Option ReasonRec :=
  if strHas "desire=" (decideParts line) then
    match desireToken (decideParts line) with
    | none => none
    | some tok =>
      match pyFloat tok with
      | none => none
      | some d =>
        some ⟨d, pystrip ((pysplit "desire=" (decideParts line)).headD "")⟩
  else some ⟨⟨0, 0⟩, pystrip ((pysplit "desire=" (decideParts line)).headD "")⟩

/-- NAR.py `parseReason` over the batch lines: the first line containing
`^decide:` decides the result.  Outer `none` models the uncaught
exception; `some none` models the Python `None` returned when no line
matches. -/
def parseReason : List String → Option (Option ReasonRec)
  | [] => some none
  | l :: rest =>
    if strHas "^decide:" l then
      match parseReasonLine l with
      | none => none
      | some r => some (some r)
    else parseReason rest

/-- Contribution of one line to the `parseReason` pass: no contribution
for a line without the marker, otherwise the parsed reason (with `none`
again modeling the exception). -/
def reasonPart (line : String) : Option (Option ReasonRec) :=
  if strHas "^decide:" line then
    match parseReasonLine line with
    | none => none
    | some r => some (some r)
  else some none

/-- Full per-line classification of NAR.py `GetOutput`: the loop
dispatch (lines 216-246) paired with the per-line body of the
`parseReason` pass (line 248).  `none` models an uncaught exception
from either path. -/
def classifyLineFull (jp : String → Option JVal) (line : String) :
    Option (LineEvent × Option ReasonRec) :=
  match classifyLine jp line, reasonPart line with
  | some ev, some r => some (ev, r)
  | _, _ => none

/-- Syntactic characterization of the lines on which the `parseReason`
pass raises: the line contains `^decide:` and the stripped tail after it
contains `desire=` not followed by a float-parseable token. -/
def badDecide (line : String) : Bool :=
  strHas "^decide:" line && strHas "desire=" (decideParts line) &&
    (match desireToken (decideParts line) with
     | none => true
     | some tok => (pyFloat tok).isNone)

example : parseReason ["x", "^decide: <a =/> b> desire=0.70"] =
    some (some ⟨⟨7, 1⟩, "<a =/> b>"⟩) := rfl
example : parseReason ["Input: bird."] = some none := rfl
example : parseReasonLine "^decide: a desire=" = none := rfl

/-!
Batch reading.  NAR.py `GetRawOutput` (lines 161-193) reads stripped
lines until end of stream, a cycle-completion message, or an
operation-arguments request.  The input stream is modeled as the list of
lines the engine emits before closing its end of the pipe.
-/

/-- Cycle-completion test of NAR.py `GetRawOutput`: substring containment
of the two fixed phrases (the message embeds a variable cycle count). -/
def isDoneMsg (line : String) : Bool :=
  strHas "done with" line && strHas "additional inference steps" line

/-- Operation-arguments-request test of NAR.py `GetRawOutput`:
case-insensitive substring containment. -/
def isArgsMsg (line : String) : Bool :=
  strHas "operation result product expected" (pylower line)

/-- Does a (stripped) line end the batch in NAR.py `GetRawOutput`? -/
def stopsBatch (line : String) : Bool := isDoneMsg line || isArgsMsg line

/-- Reading loop of NAR.py `GetRawOutput` (lines 175-193), after the
optional flush write: strips each line, stops before appending on the
cycle-completion message, skips empty lines, and stops after appending
on the arguments-request marker, setting the request flag.  End of the
list models end of stream (`readline` returning the empty string). -/
def getRawOutput : List String → List String × Bool
  | [] => ([], false)
  | l :: rest =>
    let line := pystrip l
    if isDoneMsg line then ([], false)
    else
      let keep : List String := if line = "" then [] else [line]
      if isArgsMsg line then (keep, true)
      else
        let r := getRawOutput rest
        (keep ++ r.1, r.2)

/-- Stripped non-empty lines of a stream, in order: what the reading
loop accumulates from lines that do not end the batch. -/
def keptLines : List String → List String
  | [] => []
  | l :: rest => (if pystrip l = "" then [] else [pystrip l]) ++ keptLines rest

/-!
Stats parsing.  Two distinct implementations exist: NAR.py `GetStats`
(lines 261-281) and NAR_working.py `NAR.stats` (lines 101-118), and they
disagree both on key normalization and on value typing.
-/

/-- Value stored in a stats snapshot: Python int, float, or string. -/
inductive StatVal where
  | vi : ℤ → StatVal
  | vf : PyF → StatVal
  | vs : String → StatVal
deriving DecidableEq, Repr

/-- Python dict insertion: an existing key is updated in place (keeping
its position), a new key is appended. -/
def dictInsert (k : String) (v : StatVal) : List (String × StatVal) → List (String × StatVal)
  | [] => [(k, v)]
  | (k2, v2) :: rest =>
    if k2 = k then (k2, v) :: rest else (k2, v2) :: dictInsert k v rest

/-- One line of NAR.py `GetStats` (lines 272-279): a line containing a
colon and not starting with `//` has its key taken from the text before
the first colon (stripped, spaces replaced by underscores) and its value
from the text between the first and second colons, parsed by `float`;
the `ValueError` on a non-float value is caught and the line dropped. -/
def statsNARLine (st : List (String × StatVal)) (line : String) : List (String × StatVal) :=
  if strHas ":" line && !strStarts line "//" then
    let left := String.mk (replCharL ' ' '_' (stripL ((pysplit ":" line).headD "").data))
    match pyFloat (pystrip (((pysplit ":" line).get? 1).getD "")) with
    | some v => dictInsert left (.vf v) st
    | none => st
  else st

/-- NAR.py `GetStats` over the batch lines. -/
def statsNAR (lines : List String) : List (String × StatVal) :=
  lines.foldl statsNARLine []

/-- Python `line.split(sep, 1)`: split only at the first occurrence. -/
def pysplitFirst (sep s : String) : List String :=
  match pysplit sep s with
  | [] => []
  | [x] => [x]
  | x :: rest => [x, String.intercalate sep rest]

/-- One line of NAR_working.py `NAR.stats` (lines 105-117): split at the
first colon, strip both sides, key kept verbatim (no space
normalization), value parsed as int first, then float, else kept as the
string. -/
def statsWorkingLine (st : List (String × StatVal)) (line : String) : List (String × StatVal) :=
  if strHas ":" line && !strStarts line "//" then
    match pysplitFirst ":" line with
    | [k, v] =>
      let key := pystrip k
      let value := pystrip v
      match pyInt value with
      | some n => dictInsert key (.vi n) st
      | none =>
        match pyFloat value with
        | some q => dictInsert key (.vf q) st
        | none => dictInsert key (.vs value) st
    | _ => st
  else st

/-- NAR_working.py `NAR.stats` over the batch lines. -/
def statsWorking (lines : List String) : List (String × StatVal) :=
  lines.foldl statsWorkingLine []

example : statsNAR ["currentTime: 42", "average priority: 0.57", "note: something odd"] =
    [("currentTime", .vf ⟨42, 0⟩), ("average_priority", .vf ⟨57, 2⟩)] := by decide
example : statsWorking ["currentTime: 42", "average priority: 0.57", "note: something odd"] =
    [("currentTime", .vi 42), ("average priority", .vf ⟨57, 2⟩),
     ("note", .vs "something odd")] := by decide
example : getRawOutput ["a", "", "done with 5 additional inference steps", "b"] =
    (["a"], false) := by decide
example : getRawOutput ["a", "x OPERATION RESULT PRODUCT EXPECTED y", "b"] =
    (["a", "x OPERATION RESULT PRODUCT EXPECTED y"], true) := by decide

/-!
Timed drain loop.  NAR_working.py `NAR._drain_queue` (lines 62-75) polls
a thread-safe queue with a 50 ms `get` timeout until a wall-clock
deadline.  Time is modeled in integer milliseconds; the queue and the
clock are modeled by the list of poll outcomes the loop observes: each
poll takes `dur` milliseconds and either yields a line or raises
`queue.Empty` (a successful `get` returns within the 50 ms timeout, an
empty `get` takes the full 50 ms).
-/

/-- One observed poll of the output queue: its duration in milliseconds
and its outcome (`none` models `queue.Empty`). -/
structure Poll where
  dur : ℤ
  res : Option String
deriving DecidableEq, Repr

/-- NAR_working.py `NAR._drain_queue`: returns the finishing time, the
collected lines, and whether the loop stopped by its own policy (`true`)
or merely ran out of modeled polls (`false`).  The loop keeps polling
while the current time is strictly below the deadline; a `//*done` line
is appended and ends the batch; on `queue.Empty` the batch ends exactly
when at least one line has been collected. -/
def drainLoop (deadline : ℤ) : List Poll → ℤ → List String → ℤ × List String × Bool
  | polls, t, acc =>
    if deadline ≤ t then (t, acc, true)
    else
      match polls with
      | [] => (t, acc, false)
      | p :: rest =>
        let t2 := t + p.dur
        match p.res with
        | some line =>
          let acc2 := acc ++ [line]
          if line = "//*done" then (t2, acc2, true)
          else drainLoop deadline rest t2 acc2
        | none => if acc.isEmpty then drainLoop deadline rest t2 acc else (t2, acc, true)

/-!
Batch attribution.  The threaded adapters run one background reader that
enqueues engine lines in arrival order (FIFO) and a single caller thread
that alternates `write(command)` with a drain of the queue; the drain
for command `i` runs entirely between the write of command `i` and the
write of command `i+1`.  An interleaved session is modeled as a list of
atomic events: a command write, the arrival (enqueue) of an engine line
produced in response to command `p`, and a dequeue by the currently
running drain.  Validity (`bstep` returning `some`) enforces exactly the
structure of the code: a response to command `p` can only arrive after
command `p` was written, and dequeues only happen while the drain of
some command is running.  Each queue entry records the producing command and
the global position at which the line arrived.
-/

/-- Session event: a command write, an engine line arriving into the
queue (tagged with the command index it responds to), or the running
drain taking one line off the queue. -/
inductive BEv where
  | write : BEv
  | emit : ℕ → BEv
  | deq : BEv
deriving DecidableEq, Repr

/-- Session state: number of commands written, global positions of the
writes, queue contents (producer, arrival position), per-command batches
(producer, arrival position), and the current global position. -/
structure BState where
  writes : ℕ
  writeIdx : List ℕ
  queue : List (ℕ × ℕ)
  batches : List (List (ℕ × ℕ))
  idx : ℕ
deriving DecidableEq, Repr

/-- Append an element to the i-th inner list. -/
def appendAt {α : Type} (i : ℕ) (x : α) : List (List α) → List (List α)
  | [] => []
  | b :: bs =>
    match i with
    | 0 => (b ++ [x]) :: bs
    | j + 1 => b :: appendAt j x bs

/-- One session step; `none` marks an event impossible for the code: a
response arriving before its command was written, or a dequeue from an
empty queue or before any command was written. -/
def bstep (s : BState) : BEv → Option BState
  | .write =>
    some ⟨s.writes + 1, s.writeIdx ++ [s.idx], s.queue, s.batches ++ [[]], s.idx + 1⟩
  | .emit p =>
    if p < s.writes then
      some ⟨s.writes, s.writeIdx, s.queue ++ [(p, s.idx)], s.batches, s.idx + 1⟩
    else none
  | .deq =>
    match s.queue with
    | [] => none
    | x :: rest =>
      if s.writes = 0 then none
      else some ⟨s.writes, s.writeIdx, rest, appendAt (s.writes - 1) x s.batches, s.idx + 1⟩

/-- Run a session from a given state. -/
def runFrom (s : BState) : List BEv → Option BState
  | [] => some s
  | e :: evs =>
    match bstep s e with
    | none => none
    | some s2 => runFrom s2 evs

/-- Initial session state. -/
def initB : BState := ⟨0, [], [], [], 0⟩

/-- Run a session from the initial state. -/
def runB (evs : List BEv) : Option BState := runFrom initB evs

/-!
Command issuance traces.  NAR.py `AddInput` (lines 283-313) writes the
command, then (for the stats command) `GetStats` writes `*stats` again,
and in every case `GetRawOutput` with its default `send_zero=True`
writes a flush line `0` before reading the batch.
-/

/-- Pipe-level action of the adapter: write one newline-terminated line
to the engine, or perform one batch read. -/
inductive Act where
  | wr : String → Act
  | readBatch : Act
deriving DecidableEq, Repr

/-- Actions of NAR.py `GetRawOutput` (lines 161-174): the optional flush
write of `0`, then the read loop. -/
def getRawOutputActs (sendZero : Bool) : List Act :=
  (if sendZero then [.wr "0"] else []) ++ [.readBatch]

/-- Actions of NAR.py `GetStats` (lines 261-269): writes `*stats`, then
delegates to `GetRawOutput` with the default `send_zero=True`. -/
def getStatsActs : List Act := [.wr "*stats"] ++ getRawOutputActs true

/-- Actions of NAR.py `GetOutput` (line 207): delegates to
`GetRawOutput` with the default `send_zero=True`. -/
def getOutputActs : List Act := getRawOutputActs true

/-- Actions of NAR.py `AddInput`: write the command, then collect via
`GetStats` (for the reserved stats command) or `GetOutput`. -/
def addInputActs (cmd : String) : List Act :=
  [.wr cmd] ++ (if cmd = "*stats" then getStatsActs else getOutputActs)

/-- Number of batch reads in a trace. -/
def countReads : List Act → ℕ
  | [] => 0
  | .readBatch :: rest => countReads rest + 1
  | .wr _ :: rest => countReads rest

/-!
Process termination.  NAR_working.py `NAR.terminate` (lines 120-127)
writes `quit`, waits up to one second, and on any exception falls back
to `Popen.terminate()`; every exception is caught, so the Python method
never raises, which is why its embedding is a total function into the
process state.
-/

/-- Observable state of the spawned engine process: whether it is still
alive, and whether the engine would exit by itself within the one-second
grace after receiving `quit` (a fixed property of the engine run). -/
structure ProcH where
  alive : Bool
  quitExits : Bool
deriving DecidableEq, Repr

/-- `subprocess.Popen.terminate`: signals a live process (which this
model takes to die from the signal); on an already finished process it
is a no-op and never raises. -/
def popenTerminate (p : ProcH) : ProcH :=
  if p.alive then ⟨false, p.quitExits⟩ else p

/-- NAR_working.py `NAR.terminate`: on a live process either the `quit`
command makes the engine exit within the grace period, or the
`TimeoutExpired` is caught and the process is force-killed; on a dead
process the write raises `BrokenPipeError`, which is caught, and the
fallback `Popen.terminate()` is a no-op. -/
def terminate (p : ProcH) : ProcH :=
  if p.alive then
    if p.quitExits then ⟨false, p.quitExits⟩
    else popenTerminate p
  else popenTerminate p

/-!
Task rendering.  NAR.py `PrintedTask` (lines 333-349) renders a parsed
task dict back to Narsese text.
-/

/-- Python `str.isdigit` (ASCII): non-empty and all digits. -/
def isDigitStr (s : String) : Bool := !s.data.isEmpty && s.data.all Char.isDigit

/-- NAR.py `PrintedTask`: term and punctuation, the occurrence-time
suffix, the priority suffix, and the truth suffix.  `none` models the
`TypeError` Python raises when the term is not a string or when the
`truth` key holds `None` (a non-dict truth value recorded by
`parseTask`). -/
def PrintedTask (t : TaskRec) : Option String :=
  match t.term with
  | .jstr tm =>
    let s1 := tm ++ t.punctuation
    let s2 :=
      if t.occurrenceTime ≠ "eternal" then
        if t.occurrenceTime = "now" then s1 ++ " :|:"
        else if isDigitStr t.occurrenceTime then
          s1 ++ " :|: occurrenceTime=" ++ t.occurrenceTime
        else s1
      else s1
    let s3 :=
      match t.priority with
      | some p => s2 ++ " Priority=" ++ p
      | none => s2
    match t.truth with
    | none => some s3
    | some none => none
    | some (some tr) =>
      some (s3 ++ " Truth: frequency=" ++ pyStr tr.frequency ++
        " confidence=" ++ pyStr tr.confidence)
  | _ => none

/-!
Claim theorems.  Each claim of the specification is settled below; the
helper lemmas preceding a theorem are shared infrastructure.
-/

/-- Does the value fail the Python `isinstance(x, dict)` test? -/
def isObjJ : JVal → Bool
  | .jobj _ => true
  | _ => false

/-- C10: when a parsed task truth object is present but lacks the
frequency or confidence field, `parseTruth` substitutes the defaults
frequency = 1.0 and confidence = 0.9 for the missing field, and a
non-dict truth value parses to no truth at all (Python returns `None`)
rather than raising. -/
theorem c10_truth_defaults (kvs kvs2 : List (String × JVal)) (v : JVal)
    (h1 : jGet kvs "frequency" = none)
    (h2 : jGet kvs2 "confidence" = none)
    (hv : isObjJ v = false) :
    (parseTruth (.jobj kvs)).map TruthRec.frequency = some (.jnum ⟨1, 0⟩) ∧
    (parseTruth (.jobj kvs2)).map TruthRec.confidence = some (.jnum ⟨9, 1⟩) ∧
    parseTruth v = none := by
  refine ⟨by simp [parseTruth, h1], by simp [parseTruth, h2], ?_⟩
  cases v <;> simp_all [parseTruth, isObjJ]

/-- Witness for C10 at concrete inputs. -/
theorem c10_truth_defaults_witness :
    (parseTruth (.jobj [("confidence", .jnum ⟨5, 1⟩)])).map TruthRec.frequency =
      some (.jnum ⟨1, 0⟩) ∧
    (parseTruth (.jobj [("frequency", .jnum ⟨5, 1⟩)])).map TruthRec.confidence =
      some (.jnum ⟨9, 1⟩) ∧
    parseTruth (.jstr "0.9") = none :=
  c10_truth_defaults [("confidence", .jnum ⟨5, 1⟩)] [("frequency", .jnum ⟨5, 1⟩)]
    (.jstr "0.9") rfl rfl rfl

/-- C8: `terminate` called twice completes both times (the embedding is
a total function because every exception path in the Python method is
caught), the second call is a no-op on the already terminated process,
and the process ends in the terminated state. -/
theorem c8_terminate_idempotent (p : ProcH) :
    (terminate p).alive = false ∧ terminate (terminate p) = terminate p := by
  obtain ⟨a, q⟩ := p
  cases a <;> cases q <;> decide

/-- C9 counterexample: `AddInput "bird."` writes two lines (the command
and then the flush line `0` from `GetRawOutput`) before the batch read,
so the trace is not the single write the claim asserts. -/
theorem c9_counterexample :
    addInputActs "bird." = [.wr "bird.", .wr "0", .readBatch] ∧
    addInputActs "bird." ≠ [.wr "bird.", .readBatch] := by decide

/-- Is the final action of the trace the batch read? -/
def readIsLast : List Act → Bool
  | [] => false
  | [.readBatch] => true
  | _ :: rest => readIsLast rest

/-- C9 amended: every `AddInput(command)` writes the command line, then
(for the reserved stats command) a second `*stats` line, then the flush
line `0`, and only then performs exactly one batch read, which is the
final action of the trace — so no second command is written while the
response to the first is being collected, but the write preceding the
read is never the command line alone. -/
theorem c9_amended (cmd : String) :
    addInputActs cmd =
      [Act.wr cmd] ++ (if cmd = "*stats" then [Act.wr "*stats"] else []) ++
        [Act.wr "0", Act.readBatch] ∧
    countReads (addInputActs cmd) = 1 ∧
    readIsLast (addInputActs cmd) = true := by
  by_cases h : cmd = "*stats"
  · subst h; decide
  · simp only [addInputActs, getStatsActs, getOutputActs, getRawOutputActs, if_neg h]
    exact ⟨rfl, rfl, rfl⟩

/-- Shared lemma: every successful text-mode `parseExecution` result has
an empty argument list (the text parser never extracts arguments). -/
theorem parseExecText_args (s : String) (r : ExecRec)
    (h : parseExecutionText s = some r) : r.arguments = JVal.jarr [] := by
  unfold parseExecutionText at h
  split at h
  · split at h
    · split at h
      · exact absurd h (by simp)
      · split at h
        · exact absurd h (by simp)
        · rw [Option.some_inj] at h; subst h; rfl
    · rw [Option.some_inj] at h; subst h; rfl
  · rw [Option.some_inj] at h; subst h; rfl

/-- C7: execution parsing extracts the operator name; the text line for
operator `^left` with no arguments yields operator `^left` with the
empty argument list (and so does the JSON form); when the JSON
`arguments` key is present the parsed list is exactly the JSON array in
its order; and absence of the key (or text form) always yields the empty
list. -/
theorem c7_execution_parsing (kvs kvs2 : List (String × JVal)) (args : List JVal)
    (s : String) (r : ExecRec)
    (h1 : jGet kvs "arguments" = some (JVal.jarr args))
    (h2 : jGet kvs2 "arguments" = none)
    (h3 : parseExecutionText s = some r) :
    parseExecutionText "^executed: ^left" =
      some ⟨.jstr "^left", .jarr [], .jnum ⟨0, 0⟩⟩ ∧
    parseExecutionDict [("operation", .jstr "^left")] =
      ⟨.jstr "^left", .jarr [], .jnum ⟨0, 0⟩⟩ ∧
    (parseExecutionDict kvs).arguments = JVal.jarr args ∧
    (parseExecutionDict kvs2).arguments = JVal.jarr [] ∧
    r.arguments = JVal.jarr [] :=
  ⟨rfl, rfl, by simp [parseExecutionDict, h1], by simp [parseExecutionDict, h2],
   parseExecText_args s r h3⟩

/-- Witness for C7 at concrete inputs. -/
theorem c7_execution_parsing_witness :
    parseExecutionText "^executed: ^left" =
      some ⟨.jstr "^left", .jarr [], .jnum ⟨0, 0⟩⟩ ∧
    parseExecutionDict [("operation", .jstr "^left")] =
      ⟨.jstr "^left", .jarr [], .jnum ⟨0, 0⟩⟩ ∧
    (parseExecutionDict [("arguments", .jarr [.jstr "a", .jstr "b"])]).arguments =
      JVal.jarr [.jstr "a", .jstr "b"] ∧
    (parseExecutionDict [("operation", .jstr "^op")]).arguments = JVal.jarr [] ∧
    (⟨.jstr "^left", .jarr [], .jnum ⟨7, 1⟩⟩ : ExecRec).arguments = JVal.jarr [] :=
  c7_execution_parsing [("arguments", .jarr [.jstr "a", .jstr "b"])]
    [("operation", .jstr "^op")] [.jstr "a", .jstr "b"]
    "^executed: ^left desire=0.70" ⟨.jstr "^left", .jarr [], .jnum ⟨7, 1⟩⟩
    rfl rfl rfl

/-- C2 counterexample: on `"note: something odd"` the NAR.py stats
parser drops the entry entirely instead of keeping the string value, and
on `"average priority: 0.57"` the NAR_working.py stats parser keeps the
key with its space instead of normalizing it to an underscore — so
neither implementation satisfies the claimed combined behavior. -/
theorem c2_counterexample :
    statsNAR ["note: something odd"] = [] ∧
    statsNAR ["note: something odd"] ≠ [("note", .vs "something odd")] ∧
    statsWorking ["average priority: 0.57"] = [("average priority", .vf ⟨57, 2⟩)] ∧
    statsWorking ["average priority: 0.57"] ≠ [("average_priority", .vf ⟨57, 2⟩)] := by
  decide

/-- C2 amended: the two stats parsers genuinely differ.  NAR.py
`GetStats` normalizes the key (strip, spaces to underscores) but parses
the value only with `float` — so `"currentTime: 42"` yields the float
42.0, not an integer — and drops any line whose value is not a float, so
`"note: something odd"` produces no entry.  NAR_working.py `stats`
splits at the first colon and parses int first, then float, then keeps
the string, but leaves the key un-normalized, so `"average priority"`
keeps its space. -/
theorem c2_amended :
    statsNAR ["currentTime: 42", "average priority: 0.57", "note: something odd"] =
      [("currentTime", .vf ⟨42, 0⟩), ("average_priority", .vf ⟨57, 2⟩)] ∧
    statsWorking ["currentTime: 42", "average priority: 0.57", "note: something odd"] =
      [("currentTime", .vi 42), ("average priority", .vf ⟨57, 2⟩),
       ("note", .vs "something odd")] := by
  decide

/-- C4 counterexample: batch termination in NAR.py `GetRawOutput` is by
substring containment, not exact equality against a fixed set of three
markers — the cycle-completion message embeds a variable cycle count, so
infinitely many pairwise distinct lines end the batch; here four
distinct terminating lines refute any three-element marker set. -/
theorem c4_counterexample :
    ¬ ∃ m1 m2 m3 : String, ∀ l : String,
      stopsBatch l = true ↔ (l = m1 ∨ l = m2 ∨ l = m3) := by
  rintro ⟨m1, m2, m3, h⟩
  have h1 := (h "done with 1 additional inference steps").mp (by decide)
  have h2 := (h "done with 2 additional inference steps").mp (by decide)
  have h3 := (h "done with 3 additional inference steps").mp (by decide)
  have h4 := (h "done with 4 additional inference steps").mp (by decide)
  rcases h1 with rfl | rfl | rfl <;> rcases h2 with h2 | h2 | h2 <;>
    rcases h3 with h3 | h3 | h3 <;> rcases h4 with h4 | h4 | h4 <;>
      subst_vars <;> simp_all

/-- C4 amended: in NAR.py `GetRawOutput`, a line containing both
cycle-completion phrases ends the batch immediately (before being
appended) without setting the flag; a line whose lowercased text
contains the operation-arguments-request phrase ends the batch after
being appended and is the only way the `requestOutputArgs` flag is set;
and a stream with no terminating line is consumed in full with the flag
left unset.  Matching is substring containment (case-insensitive for
the arguments request), not exact equality. -/
theorem c4_amended (pre post : List String) (d a : String)
    (hpre : ∀ l ∈ pre, stopsBatch (pystrip l) = false)
    (hd : isDoneMsg (pystrip d) = true)
    (ha1 : isDoneMsg (pystrip a) = false)
    (ha2 : isArgsMsg (pystrip a) = true) :
    getRawOutput (pre ++ d :: post) = (keptLines pre, false) ∧
    getRawOutput (pre ++ a :: post) = (keptLines pre ++ keptLines [a], true) ∧
    getRawOutput pre = (keptLines pre, false) := by
  induction pre with
  | nil =>
    refine ⟨by simp [getRawOutput, hd, keptLines], ?_, rfl⟩
    simp [getRawOutput, ha1, ha2, keptLines]
  | cons l rest ih =>
    have hl := hpre l (by simp)
    rw [stopsBatch, Bool.or_eq_false_iff] at hl
    obtain ⟨ih1, ih2, ih3⟩ := ih (fun x hx => hpre x (by simp [hx]))
    refine ⟨?_, ?_, ?_⟩ <;>
      simp [getRawOutput, hl.1, hl.2, ih1, ih2, ih3, keptLines]

/-- Shared lemma: a leading occurrence is in particular an occurrence
(Python `s.startswith(p)` implies `p in s`). -/
theorem startsWith_contains (n l : List Char) (h : startsWithL n l = true) :
    containsL n l = true := by
  cases l with
  | nil =>
    cases n with
    | nil => rfl
    | cons c cs => simp [startsWithL] at h
  | cons c cs => simp [containsL, h]

/-- Shared lemma: on a line that is not syntactically bad (`badDesire`),
the text-mode `parseExecution` succeeds. -/
theorem parseExecText_total (line : String)
    (hs : strStarts line "^executed:" = true)
    (hb : badDesire line = false) :
    (parseExecutionText line).isSome = true := by
  have hc : strHas "^executed:" line = true := startsWith_contains _ _ hs
  unfold badDesire at hb
  rw [hs] at hb
  simp only [Bool.true_and] at hb
  by_cases hd : strHas "desire=" line = true
  · cases hdt : desireToken line with
    | none => rw [hd, hdt] at hb; simp at hb
    | some tok =>
      cases hpf : pyFloat tok with
      | none => rw [hd, hdt] at hb; simp [hpf] at hb
      | some d => simp [parseExecutionText, hc, hd, hdt, hpf]
  · have hd2 : strHas "desire=" line = false := by simpa using hd
    simp [parseExecutionText, hc, hd2]

/-- Shared lemma: the main-loop dispatch yields an event for every line
that is not a bad `^executed:` line, under any behavior of the JSON
loader. -/
theorem classifyLine_isSome (jp : String → Option JVal) (line : String)
    (h : badDesire line = false) :
    (classifyLine jp line).isSome = true := by
  unfold classifyLine
  cases hj : classifyJson jp line with
  | some ev => simp
  | none =>
    show (classifyText line).isSome = true
    unfold classifyText
    by_cases h1 : strStarts line "^executed:" = true
    · rw [if_pos h1]
      have ht := parseExecText_total line h1 h
      cases hp : parseExecutionText line with
      | none => rw [hp] at ht; simp at ht
      | some r => rfl
    · rw [if_neg h1]
      split_ifs <;> rfl

/-- Shared lemma: on a line containing `^decide:` that is not a bad
decide line, the per-line body of the `parseReason` pass succeeds. -/
theorem parseReasonLine_total (line : String)
    (hd : strHas "^decide:" line = true)
    (hb : badDecide line = false) :
    (parseReasonLine line).isSome = true := by
  unfold badDecide at hb
  rw [hd] at hb
  simp only [Bool.true_and] at hb
  unfold parseReasonLine
  by_cases hm : strHas "desire=" (decideParts line) = true
  · cases hdt : desireToken (decideParts line) with
    | none => rw [hm, hdt] at hb; simp at hb
    | some tok =>
      cases hpf : pyFloat tok with
      | none => rw [hm, hdt] at hb; simp [hpf] at hb
      | some d => simp [hm, hdt, hpf]
  · have hm2 : strHas "desire=" (decideParts line) = false := by simpa using hm
    simp [hm2]

/-- C1 counterexample: the classifier is not total — on the line
`^executed: ^a desire=` the field extraction of `parseExecution`
raises, and on the line `^decide: a desire=` the `parseReason` pass of
`GetOutput` raises the same way (`IndexError` from `"".split()[0]` in
Python, modeled by `none`), so neither line is mapped to an event. -/
theorem c1_counterexample :
    classifyLineFull jpNone "^executed: ^a desire=" = none ∧
    parseExecutionText "^executed: ^a desire=" = none ∧
    classifyLineFull jpNone "^decide: a desire=" = none ∧
    parseReason ["^decide: a desire="] = none := ⟨rfl, rfl, rfl, rfl⟩

/-- C1 amended: full per-line classification (the loop dispatch
together with the per-line body of the `parseReason` pass) is total and
maps each line to at most one typed event plus at most one reason
candidate, for every line except (a) the `^executed:` lines whose
`desire=` marker is not followed by a float-parseable token and (b) the
lines containing `^decide:` whose stripped tail has a `desire=` marker
not followed by a float-parseable token (on both the Python code
raises); in particular every unrecognized shape, including the
empty-after-strip line and arbitrary garbage, is demoted to the
`unstructured` event rather than raising, under any behavior of the
JSON loader. -/
theorem c1_amended (jp : String → Option JVal) (line : String)
    (h1 : badDesire line = false) (h2 : badDecide line = false) :
    (classifyLineFull jp line).isSome = true := by
  have hc := classifyLine_isSome jp line h1
  unfold classifyLineFull
  cases hcl : classifyLine jp line with
  | none => rw [hcl] at hc; simp at hc
  | some ev =>
    cases hr : reasonPart line with
    | none =>
      exfalso
      unfold reasonPart at hr
      by_cases hd : strHas "^decide:" line = true
      · rw [if_pos hd] at hr
        have ht := parseReasonLine_total line hd h2
        cases hpl : parseReasonLine line with
        | none => rw [hpl] at ht; simp at ht
        | some r => rw [hpl] at hr; exact absurd hr (by simp)
      · rw [if_neg hd] at hr
        exact absurd hr (by simp)
    | some r => rfl

/-- Witness for C1 at concrete inputs: a well-formed execution line is
neither a bad execution line nor a bad decide line, and classifies
successfully. -/
theorem c1_amended_witness :
    badDesire "^executed: ^left desire=0.70" = false ∧
    badDecide "^executed: ^left desire=0.70" = false ∧
    (classifyLineFull jpNone "^executed: ^left desire=0.70").isSome = true :=
  ⟨rfl, rfl, c1_amended jpNone "^executed: ^left desire=0.70" rfl rfl⟩

/-- JSON object of the eternal belief `<bird --> animal>` with truth
frequency 1.0 and confidence 0.9, as the engine would emit it. -/
def c6json : JVal :=
  .jobj [("term", .jstr "<bird --> animal>"), ("type", .jstr "belief"),
    ("truth", .jobj [("frequency", .jnum ⟨1, 0⟩), ("confidence", .jnum ⟨9, 1⟩)])]

/-- Task produced by `parseTask` on `c6json`. -/
def c6task : TaskRec :=
  ⟨.jstr "<bird --> animal>", "eternal", ".",
   some (some ⟨.jnum ⟨1, 0⟩, .jnum ⟨9, 1⟩⟩), none⟩

/-- Rendering of `c6task` by `PrintedTask`. -/
def c6line : String := "<bird --> animal>. Truth: frequency=1.0 confidence=0.9"

/-- C6 counterexample: the parsed eternal belief renders to the expected
Narsese text, but re-parsing that rendered line does not yield a Task —
the line classifier produces no task event for it (and `parseTask`
itself only accepts JSON objects, rejecting the rendered string), so the
textual round-trip fails. -/
theorem c6_counterexample :
    parseTask c6json = some c6task ∧
    PrintedTask c6task = some c6line ∧
    isTaskEvent (classifyLine jpNone c6line) = false := ⟨rfl, rfl, rfl⟩

/-- C6 amended: rendering the parsed eternal belief yields the line
`<bird --> animal>. Truth: frequency=1.0 confidence=0.9`, but the
adapter has no textual Narsese task parser: the line classifier demotes
the rendered line to `unstructured`, and `parseTask` returns `None` on
the rendered string because it accepts only JSON objects.  The
round-trip holds only at the JSON level — re-parsing the originating
JSON object reproduces the identical term, punctuation and truth. -/
theorem c6_amended :
    PrintedTask c6task = some c6line ∧
    classifyLine jpNone c6line = some .unstructured ∧
    parseTask (.jstr c6line) = none ∧
    parseTask c6json = some c6task := ⟨rfl, rfl, rfl, rfl⟩

/-- Shared lemma: the drain loop finishes no later than one 50 ms poll
interval past the deadline (or at its start time if that is already past
the deadline), whenever no poll outlasts the 50 ms `get` timeout. -/
theorem drain_time_le (deadline : ℤ) (polls : List Poll) (t : ℤ) (acc : List String)
    (h : ∀ p ∈ polls, p.dur ≤ 50) :
    (drainLoop deadline polls t acc).1 ≤ max t (deadline + 50) := by
  induction polls generalizing t acc with
  | nil =>
    unfold drainLoop
    split
    · exact le_max_left _ _
    · exact le_max_left _ _
  | cons p rest ih =>
    obtain ⟨pd, pr⟩ := p
    have hdur : pd ≤ 50 := h ⟨pd, pr⟩ (List.mem_cons_self _ _)
    have hrest : ∀ q ∈ rest, q.dur ≤ 50 := fun q hq => h q (List.mem_cons_of_mem _ hq)
    unfold drainLoop
    split
    · exact le_max_left _ _
    · rename_i hlt
      have hbound : t + pd ≤ deadline + 50 := by omega
      have hstep : ∀ acc2 : List String,
          (drainLoop deadline rest (t + pd) acc2).1 ≤ max t (deadline + 50) :=
        fun acc2 =>
          calc (drainLoop deadline rest (t + pd) acc2).1
              ≤ max (t + pd) (deadline + 50) := ih (t + pd) acc2 hrest
            _ ≤ deadline + 50 := max_le hbound le_rfl
            _ ≤ max t (deadline + 50) := le_max_right _ _
      cases pr with
      | some line =>
        by_cases hdone : line = "//*done"
        · simp only [hdone, if_pos rfl]
          exact le_trans hbound (le_max_right _ _)
        · simp only [if_neg hdone]
          exact hstep (acc ++ [line])
      | none =>
        by_cases hacc : acc.isEmpty = true
        · simp only [hacc, if_pos rfl]
          exact hstep acc
        · simp only [eq_false_of_ne_true hacc, if_false]
          exact le_trans hbound (le_max_right _ _)

/-- Shared lemma: when every poll takes at least `eps > 0` milliseconds
and the modeled poll list covers the time from `t` to the deadline, the
loop stops by its own termination policy (it cannot run forever: each
iteration consumes positive time and the guard closes at the deadline). -/
theorem drain_completes (deadline eps : ℤ) (polls : List Poll) (t : ℤ) (acc : List String)
    (heps : 0 < eps)
    (hlo : ∀ p ∈ polls, eps ≤ p.dur)
    (hlen : deadline ≤ t + (polls.length : ℤ) * eps) :
    (drainLoop deadline polls t acc).2.2 = true := by
  induction polls generalizing t acc with
  | nil =>
    unfold drainLoop
    split
    · rfl
    · simp only [List.length_nil, Int.ofNat_zero, zero_mul, add_zero] at hlen
      omega
  | cons p rest ih =>
    obtain ⟨pd, pr⟩ := p
    have hdur : eps ≤ pd := hlo ⟨pd, pr⟩ (List.mem_cons_self _ _)
    have hrest : ∀ q ∈ rest, eps ≤ q.dur := fun q hq => hlo q (List.mem_cons_of_mem _ hq)
    have hlen2 : deadline ≤ t + pd + (rest.length : ℤ) * eps := by
      have hexp : ((rest.length : ℤ) + 1) * eps = (rest.length : ℤ) * eps + eps := by ring
      have hcast : ((⟨pd, pr⟩ :: rest).length : ℤ) = (rest.length : ℤ) + 1 := by
        simp [List.length_cons]
      rw [hcast, hexp] at hlen
      linarith
    unfold drainLoop
    split
    · rfl
    · rename_i hlt
      cases pr with
      | some line =>
        by_cases hdone : line = "//*done"
        · simp [hdone]
        · simp only [if_neg hdone]
          exact ih (t + pd) (acc ++ [line]) hrest hlen2
      | none =>
        by_cases hacc : acc.isEmpty = true
        · simp only [hacc, if_pos rfl]
          exact ih (t + pd) acc hrest hlen2
        · simp only [eq_false_of_ne_true hacc, if_false]
          rfl

/-- C5 counterexample: the loop can wait past its deadline.  With the
100 ms deadline used for the startup drain, two 40 ms successful polls
put the time at 80 ms, still under the deadline, so the loop issues one
more 50 ms empty poll and finishes at 130 ms — after the deadline. -/
theorem c5_counterexample :
    drainLoop 100 [⟨40, some "w"⟩, ⟨40, some "x"⟩, ⟨50, none⟩] 0 [] =
      (130, ["w", "x"], true) ∧
    ¬ ((130 : ℤ) ≤ 100) := by decide

/-- C5 amended: the batch-read loop always terminates and never raises
(the embedding is a total function returning the collected lines): it
stops by its own policy within the poll budget whenever each poll takes
at least `eps > 0` ms, it never runs more than one 50 ms poll interval
past its deadline, and once at least one line has been collected a
single empty poll (the idle grace) ends the batch immediately,
returning the lines collected so far. -/
theorem c5_amended (deadline eps u t2 : ℤ) (polls rest : List Poll)
    (t : ℤ) (acc acc2 : List String)
    (heps : 0 < eps)
    (hdur : ∀ p ∈ polls, eps ≤ p.dur ∧ p.dur ≤ 50)
    (hlen : deadline ≤ t + (polls.length : ℤ) * eps)
    (ht : t ≤ deadline)
    (hacc : acc2 ≠ [])
    (ht2 : ¬ deadline ≤ t2) :
    (drainLoop deadline polls t acc).1 ≤ deadline + 50 ∧
    (drainLoop deadline polls t acc).2.2 = true ∧
    drainLoop deadline (⟨u, none⟩ :: rest) t2 acc2 = (t2 + u, acc2, true) := by
  refine ⟨?_, ?_, ?_⟩
  · have := drain_time_le deadline polls t acc (fun p hp => (hdur p hp).2)
    have hm : max t (deadline + 50) = deadline + 50 := max_eq_right (by omega)
    rw [hm] at this
    exact this
  · exact drain_completes deadline eps polls t acc heps (fun p hp => (hdur p hp).1) hlen
  · unfold drainLoop
    rw [if_neg ht2]
    cases acc2 with
    | nil => exact absurd rfl hacc
    | cons x xs => rfl

/-- Witness for C5 at concrete inputs: a 500 ms deadline with ten 50 ms
empty polls, and a grace poll on a batch that already collected a line. -/
theorem c5_amended_witness :
    (drainLoop 500 (List.replicate 10 ⟨50, none⟩) 0 []).1 ≤ 500 + 50 ∧
    (drainLoop 500 (List.replicate 10 ⟨50, none⟩) 0 []).2.2 = true ∧
    drainLoop 500 [⟨50, none⟩] 0 ["a"] = (0 + 50, ["a"], true) :=
  c5_amended 500 50 50 0 (List.replicate 10 ⟨50, none⟩) [] 0 [] ["a"]
    (by decide) (by decide) (by decide) (by decide) (by decide) (by decide)

/-- Shared lemma: `appendAt` preserves length. -/
theorem appendAt_length {α : Type} (x : α) (bs : List (List α)) (i : ℕ) :
    (appendAt i x bs).length = bs.length := by
  induction bs generalizing i with
  | nil => cases i <;> rfl
  | cons b bs ih =>
    cases i with
    | zero => simp [appendAt]
    | succ j => simp [appendAt, ih j]

/-- Shared lemma: effect of `appendAt` on each position. -/
theorem appendAt_get {α : Type} (x : α) (bs : List (List α)) (i j : ℕ) :
    (appendAt i x bs).get? j =
      if j = i then (bs.get? j).map (fun b => b ++ [x]) else bs.get? j := by
  induction bs generalizing i j with
  | nil => simp [appendAt]
  | cons b bs ih =>
    cases i with
    | zero =>
      cases j with
      | zero => simp [appendAt]
      | succ j => simp [appendAt]
    | succ i =>
      cases j with
      | zero => simp [appendAt]
      | succ j => simpa [appendAt] using ih i j

/-- Invariant of the session model: batch and write-position tables have
one entry per written command; every line in batch `i` was produced by a
command of index at most `i`, arrived before the current position, and
arrived before the position of write `i+1` when that write exists; every
queued line was produced by an already written command and arrived
before the current position. -/
def BInv (s : BState) : Prop :=
  s.batches.length = s.writes ∧
  s.writeIdx.length = s.writes ∧
  (∀ i b, s.batches.get? i = some b → ∀ e ∈ b, Prod.fst e ≤ i ∧ Prod.snd e < s.idx ∧
    ∀ w, s.writeIdx.get? (i + 1) = some w → Prod.snd e < w) ∧
  (∀ e ∈ s.queue, Prod.fst e < s.writes ∧ Prod.snd e < s.idx)

/-- Shared lemma: the initial state satisfies the invariant. -/
theorem binv_init : BInv initB := by
  refine ⟨rfl, rfl, ?_, ?_⟩
  · intro i b hb
    simp [initB] at hb
  · intro e he
    simp [initB] at he

/-- Shared lemma: every session step preserves the invariant. -/
theorem bstep_inv (s s2 : BState) (e : BEv)
    (hs : bstep s e = some s2) (h : BInv s) : BInv s2 := by
  obtain ⟨h1, h2, h3, h4⟩ := h
  cases e with
  | write =>
    simp only [bstep, Option.some_inj] at hs
    subst hs
    refine ⟨by simp [h1], by simp [h2], ?_, ?_⟩
    · intro i b hb e he
      dsimp only at hb ⊢
      by_cases hi : i < s.batches.length
      · rw [List.get?_append hi] at hb
        obtain ⟨e1, e2, e3⟩ := h3 i b hb e he
        refine ⟨e1, by omega, ?_⟩
        intro w hw
        by_cases hi2 : i + 1 < s.writeIdx.length
        · rw [List.get?_append hi2] at hw
          exact e3 w hw
        · have hi3 : i + 1 = s.writeIdx.length := by omega
          rw [hi3, List.get?_concat_length] at hw
          rw [Option.some_inj] at hw
          subst hw
          exact e2
      · by_cases hi2 : i = s.batches.length
        · subst hi2
          rw [List.get?_concat_length] at hb
          rw [Option.some_inj] at hb
          subst hb
          simp at he
        · rw [List.get?_eq_none.mpr (by simp; omega)] at hb
          exact absurd hb (by simp)
    · intro e he
      dsimp only
      obtain ⟨e1, e2⟩ := h4 e he
      exact ⟨by omega, by omega⟩
  | emit p =>
    simp only [bstep] at hs
    split at hs
    · rw [Option.some_inj] at hs
      subst hs
      rename_i hp
      refine ⟨h1, h2, ?_, ?_⟩
      · intro i b hb e he
        dsimp only at hb ⊢
        obtain ⟨e1, e2, e3⟩ := h3 i b hb e he
        exact ⟨e1, by omega, e3⟩
      · intro e he
        dsimp only at he ⊢
        simp only [List.mem_append, List.mem_singleton] at he
        cases he with
        | inl hin =>
          obtain ⟨e1, e2⟩ := h4 e hin
          exact ⟨e1, by omega⟩
        | inr hnew =>
          subst hnew
          exact ⟨hp, by omega⟩
    · exact absurd hs (by simp)
  | deq =>
    simp only [bstep] at hs
    split at hs
    · exact absurd hs (by simp)
    · rename_i x rest hq
      split at hs
      · exact absurd hs (by simp)
      · rename_i hw0
        rw [Option.some_inj] at hs
        subst hs
        have hxq : x ∈ s.queue := by rw [hq]; exact List.mem_cons_self _ _
        obtain ⟨hx1, hx2⟩ := h4 x hxq
        refine ⟨by dsimp only; rw [appendAt_length]; exact h1, h2, ?_, ?_⟩
        · intro i b hb e he
          dsimp only at hb ⊢
          rw [appendAt_get] at hb
          by_cases hi : i = s.writes - 1
          · rw [if_pos hi] at hb
            obtain ⟨b0, hb0, rfl⟩ := Option.map_eq_some'.mp hb
            simp only [List.mem_append, List.mem_singleton] at he
            cases he with
            | inl hin =>
              obtain ⟨e1, e2, e3⟩ := h3 i b0 hb0 e hin
              exact ⟨e1, by omega, fun w hw => e3 w hw⟩
            | inr hx =>
              subst hx
              refine ⟨by omega, by omega, ?_⟩
              intro w hw
              have hi1 : i + 1 = s.writes := by omega
              rw [hi1, List.get?_eq_none.mpr (by omega)] at hw
              exact absurd hw (by simp)
          · rw [if_neg hi] at hb
            obtain ⟨e1, e2, e3⟩ := h3 i b hb e he
            exact ⟨e1, by omega, e3⟩
        · intro e he
          dsimp only at he ⊢
          have hmem : e ∈ s.queue := by rw [hq]; exact List.mem_cons_of_mem _ he
          obtain ⟨e1, e2⟩ := h4 e hmem
          exact ⟨e1, by omega⟩

/-- Shared lemma: the invariant holds at the end of every valid run. -/
theorem runFrom_inv (evs : List BEv) (s s2 : BState)
    (hrun : runFrom s evs = some s2) (h : BInv s) : BInv s2 := by
  induction evs generalizing s with
  | nil =>
    simp only [runFrom, Option.some_inj] at hrun
    subst hrun
    exact h
  | cons e evs ih =>
    simp only [runFrom] at hrun
    cases hstep : bstep s e with
    | none => rw [hstep] at hrun; exact absurd hrun (by simp)
    | some s1 =>
      rw [hstep] at hrun
      exact ih s1 hrun (bstep_inv s s1 e hstep h)

/-- C3 counterexample: a batch may contain a line emitted before its own
command was written.  In the session `write, emit 0, write, deq` the
drain for command 0 ends empty (deadline or grace expiry), the engine
line for command 0 arrives at position 1, command 1 is written at
position 2, and the drain for command 1 dequeues the stale line: batch 1
holds a line that arrived at position 1, strictly before - not after -
the write of command 1 at position 2 (the claim would require 2 < 1). -/
theorem c3_counterexample :
    runB [BEv.write, BEv.emit 0, BEv.write, BEv.deq] =
      some ⟨2, [0, 2], [], [[], [(0, 1)]], 4⟩ ∧
    ¬ (2 < 1) := by decide

/-- C3 amended: in every valid session, every line of the batch for
command `i` was produced in response to a command of index at most `i`
(no line produced by a later command ever appears in an earlier batch),
and arrived strictly before command `i+1` was written; however a line
may have arrived before command `i` was written (a stale leftover from
an earlier timed-out drain), so the direction "emitted strictly
after command i" of the original claim does not hold. -/
theorem c3_amended (evs : List BEv) (s : BState) (i : ℕ) (b : List (ℕ × ℕ))
    (p t w : ℕ)
    (hrun : runB evs = some s)
    (hb : s.batches.get? i = some b)
    (hm : (p, t) ∈ b)
    (hw : s.writeIdx.get? (i + 1) = some w) :
    p ≤ i ∧ t < w := by
  have hinv := runFrom_inv evs initB s hrun binv_init
  obtain ⟨-, -, h3, -⟩ := hinv
  obtain ⟨e1, -, e3⟩ := h3 i b hb (p, t) hm
  exact ⟨e1, e3 w hw⟩

/-- Witness for C3 at a concrete session: the line for command 0 is
dequeued into batch 0 before command 1 is written. -/
theorem c3_amended_witness :
    runB [BEv.write, BEv.emit 0, BEv.deq, BEv.write] =
      some ⟨2, [0, 3], [], [[(0, 1)], []], 4⟩ ∧ (0 ≤ 0 ∧ 1 < 3) :=
  ⟨by decide,
   c3_amended [BEv.write, BEv.emit 0, BEv.deq, BEv.write]
     ⟨2, [0, 3], [], [[(0, 1)], []], 4⟩ 0 [(0, 1)] 0 1 3
     (by decide) (by decide) (by decide) (by decide)⟩

/-- Witness for C4 at concrete inputs: one plain line, then either a
cycle-completion line or an arguments-request line, each followed by an
unread tail. -/
theorem c4_amended_witness :
    getRawOutput (["hello"] ++ "done with 3 additional inference steps" :: ["tail"]) =
      (keptLines ["hello"], false) ∧
    getRawOutput (["hello"] ++ "x operation result product expected" :: ["tail"]) =
      (keptLines ["hello"] ++ keptLines ["x operation result product expected"], true) ∧
    getRawOutput ["hello"] = (keptLines ["hello"], false) :=
  c4_amended ["hello"] ["tail"] "done with 3 additional inference steps"
    "x operation result product expected" (by decide) (by decide) (by decide) (by decide)
